import Mathlib

/-!
Shallow embedding of `core/tauri-plugin/src/build/mod.rs` (the Tauri plugin
build-script core): the `Builder` facade, its `try_build` pipeline, the
`generate_docs` documentation generator, and the `build_var` environment
reader.  Helpers that live in `tauri-utils` (`acl::build::*`, the `Error`
type, the `PermissionFile` data model) are not part of the given sources and
are modelled from the specification; each such definition carries a doc
comment starting with the words Modelled from the spec.

Filesystem and process side effects are embedded as an explicit trace of
`Effect` values; the build-script environment is a partial map from variable
names to values; the result of the external cargo-metadata query is an
explicit `Option String` input.
-/

/-- Modelled from the spec (§3, tauri-utils type used by `generate_docs`):
a permission set has an identifier and a required description. -/
structure PermissionSet where
  identifier : String
  description : String
deriving DecidableEq

/-- Modelled from the spec (§3): the optional default permission carries an
optional description. -/
structure DefaultPermission where
  description : Option String
deriving DecidableEq

/-- Modelled from the spec (§3): an individual permission has an identifier
and an optional description. -/
structure Permission where
  identifier : String
  description : Option String
deriving DecidableEq

/-- Modelled from the spec (§3, tauri-utils `acl::plugin::PermissionFile`):
one declaration file, with its sets, optional default and permissions. -/
structure PermissionFile where
  set : List PermissionSet
  default : Option DefaultPermission
  permission : List Permission
deriving DecidableEq

/-- Modelled from the spec (§7, tauri-utils `acl::Error`): the error
taxonomy of the build pipeline.  `BuildVar` names the missing variable,
`Parse` the offending path, `Validation` both conflicting sources. -/
inductive Error where
  | BuildVar (key : String)
  | CrateName
  | Parse (path : String)
  | Validation (firstSource : String) (secondSource : String)
  | WriteFile (path : String)
  | Metadata
deriving DecidableEq

/-- One observable side effect of the build pipeline. -/
inductive Effect where
  | createDir (path : String)
  | writeFile (path : String) (contents : String)
  | printLine (line : String)
deriving DecidableEq

/-- The build-script environment: a partial map from variable names to
values. -/
def Env : Type := String → Option String

/-- `build_var` from the source: grab an env var expected to be set inside
build scripts, with its absence reported as `Error::BuildVar(key)`. -/
def build_var (env : Env) (key : String) : Except Error String :=
  match env key with
  | some v => Except.ok v
  | none => Except.error (Error.BuildVar key)

/-- Joining a directory and a file name with a path separator. -/
def artifactPath (dir fileName : String) : String :=
  dir ++ "/" ++ fileName

/-- The `permissions/autogenerated` directory of the source. -/
def autogeneratedDir : String := "permissions/autogenerated"

/-- The `commands` subdirectory the autogenerated command permissions are
written to. -/
def commandsDirPath : String := autogeneratedDir ++ "/commands"

/-- Modelled from the spec (§4.2/§6): the serialization format of the
autogenerated declaration files is left open; a fixed extension stands in
for it. -/
def autogenExtension : String := "toml"

/-- Modelled from the spec (§4.2): the synthesized declaration granting an
allow-style capability scoped to exactly one command. -/
def commandFileContent (header command : String) : String :=
  header ++ "permission allow-" ++ command ++ " commands.allow = " ++ command

/-- Modelled from the spec (§4.2, tauri-utils
`acl::build::autogenerate_command_permissions`): write one declaration file
per command into the target directory, named after the command. -/
def autogenerate_command_permissions (dir : String) (commands : List String)
    (header : String) : List Effect :=
  commands.map (fun command =>
    Effect.writeFile (artifactPath dir (command ++ "." ++ autogenExtension))
      (commandFileContent header command))

/-- The two identifier namespaces of a permission file. -/
inductive IdKind where
  | set
  | perm
deriving DecidableEq

/-- The (kind, identifier, source path) triples declared by one permission
file, in declaration order: sets first, then individual permissions. -/
def fileEntries (path : String) (f : PermissionFile) :
    List (IdKind × String × String) :=
  f.set.map (fun s => (IdKind.set, s.identifier, path))
    ++ f.permission.map (fun p => (IdKind.perm, p.identifier, path))

/-- All identifier entries of a loaded collection, in file order then
declaration order. -/
def collectionEntries (files : List (String × PermissionFile)) :
    List (IdKind × String × String) :=
  (files.map (fun pf => fileEntries pf.1 pf.2)).flatten

/-- The first pair of sources declaring the same identifier of the same
kind, scanning in order. -/
def firstDuplicate : List (IdKind × String × String) → Option (String × String)
  | [] => none
  | e :: rest =>
    match rest.find? (fun x => x.1 == e.1 && x.2.1 == e.2.1) with
    | some x => some (e.2.2, x.2.2)
    | none => firstDuplicate rest

/-- Modelled from the spec (§4.3): merge already-parsed declaration files
into the ordered collection, failing with a `Validation` error naming both
conflicting sources when two entries of the same kind share an identifier;
an empty input is not an error.  (Glob expansion and per-file parsing happen
upstream of this model: the input is the parsed files in discovery order.) -/
def mergePermissionFiles (files : List (String × PermissionFile)) :
    Except Error (List PermissionFile) :=
  match firstDuplicate (collectionEntries files) with
  | some (p, q) => Except.error (Error.Validation p q)
  | none => Except.ok (files.map Prod.snd)

/-- Modelled from the spec (§4.3 step 5): a stable serialization of the
merged collection for the compiled build artifact. -/
def serializePermissionFile (f : PermissionFile) : String :=
  String.join (f.set.map (fun s => "set " ++ s.identifier ++ " = " ++ s.description ++ ";"))
    ++ (match f.default with
        | some d =>
          "default" ++ (match d.description with
            | some dd => " = " ++ dd
            | none => "") ++ ";"
        | none => "")
    ++ String.join (f.permission.map (fun p =>
        "permission " ++ p.identifier ++ (match p.description with
          | some pd => " = " ++ pd
          | none => "") ++ ";"))

/-- Modelled from the spec (§4.3): the compiled representation of the merged
collection. -/
def serializePermissionFiles (perms : List PermissionFile) : String :=
  "compiled-permissions:" ++ String.join (perms.map serializePermissionFile)

/-- Modelled from the spec (§4.3, tauri-utils `acl::build::define_permissions`):
load and merge the declaration files and write the compiled representation of
the merged collection into the output directory, namespaced by the plugin
name.  Returns the merged collection together with the write effects. -/
def define_permissions (files : List (String × PermissionFile))
    (name outDir : String) : Except Error (List PermissionFile × List Effect) :=
  match mergePermissionFiles files with
  | Except.error e => Except.error e
  | Except.ok perms =>
    Except.ok (perms,
      [Effect.writeFile (artifactPath outDir (name ++ "-permission-files"))
        (serializePermissionFiles perms)])

/-- Modelled from the spec (§4.4): the JSON Schema document describing the
PermissionFile shape. -/
def permissionFileSchemaJson (perms : List PermissionFile) : String :=
  "json-schema(PermissionFile):" ++ serializePermissionFiles perms

/-- Modelled from the spec (§4.4/§6, tauri-utils `acl::build::generate_schema`):
produce the PermissionFile JSON Schema, scoped under the plugin's name, and
write it to the build output directory as
`<build-output-dir>/<plugin-name>-schema.json`.  The source call site passes
the permissions directory as second argument; the spec places the artifact in
the build output directory, so the plugin name and output directory (ambient
build-script inputs) are modelled as explicit arguments. -/
def generate_schema (perms : List PermissionFile) (_dir : String)
    (name outDir : String) : List Effect :=
  [Effect.writeFile (artifactPath outDir (name ++ "-schema.json"))
    (permissionFileSchemaJson perms)]

/-- Modelled from the spec (§3): the externally supplied global-scope schema
description. -/
structure RootSchema where
  json : String
deriving DecidableEq

/-- Modelled from the spec (§4.4/§6, tauri-utils
`acl::build::define_global_scope_schema`): write the global-scope schema
artifact as `<build-output-dir>/<plugin-name>-global-scope-schema.json`. -/
def define_global_scope_schema (schema : RootSchema) (name outDir : String) :
    List Effect :=
  [Effect.writeFile (artifactPath outDir (name ++ "-global-scope-schema.json"))
    ("json-schema(global-scope):" ++ schema.json)]

/-- The optional global-scope step of `try_build`: run
`define_global_scope_schema` when a schema was stored, otherwise do
nothing. -/
def global_scope_step (o : Option RootSchema) (name outDir : String) :
    List Effect :=
  match o with
  | some schema => define_global_scope_schema schema name outDir
  | none => []

/-- `find_metadata` from the source: read `CARGO_MANIFEST_DIR` and run the
external cargo-metadata query there.  The query itself is external; its
outcome is an explicit input, with failure surfaced as `Error::Metadata`. -/
def find_metadata (env : Env) (metadataResult : Option String) :
    Except Error String :=
  match build_var env "CARGO_MANIFEST_DIR" with
  | Except.error e => Except.error e
  | Except.ok _ =>
    match metadataResult with
    | some m => Except.ok m
    | none => Except.error Error.Metadata

/-- `docs_from` from the source: a Markdown section heading for `id`, with
the description appended after a blank line when present. -/
def docs_from (id : String) (description : Option String) : String :=
  let docs := "## " ++ id
  match description with
  | some d => docs ++ "\n\n" ++ d
  | none => docs

/-- The body of the loop of `generate_docs` in the source, for one
permission file: push one section per set, one for the default permission
when present, and one per individual permission, each followed by a blank
line. -/
def docsStep (docs : String) (permission : PermissionFile) : String :=
  let docs := permission.set.foldl (fun docs s =>
    docs ++ docs_from s.identifier (some s.description) ++ "\n\n") docs
  let docs := match permission.default with
    | some dflt => docs ++ docs_from "default" dflt.description ++ "\n\n"
    | none => docs
  permission.permission.foldl (fun docs p =>
    docs ++ docs_from p.identifier p.description ++ "\n\n") docs

/-- The document text accumulated by the loop of `generate_docs` in the
source: the `# Permissions` header, then the sections of each file in
collection order. -/
def generate_docs_content (permissions : List PermissionFile) : String :=
  permissions.foldl docsStep "# Permissions\n\n"

/-- `generate_docs` from the source: write the rendered document to
`reference.md` in the given output directory. -/
def generate_docs (permissions : List PermissionFile) (out_dir : String) :
    List Effect :=
  [Effect.writeFile (out_dir ++ "/reference.md") (generate_docs_content permissions)]

/-- The `Builder` of the source: the command list and the optional stored
global-scope schema. -/
structure Builder where
  commands : List String
  globalScopeSchema : Option RootSchema
deriving DecidableEq

/-- `Builder::new` from the source. -/
def Builder.new (commands : List String) : Builder :=
  { commands := commands, globalScopeSchema := none }

/-- `Builder::global_scope_schema` from the source: store (replacing any
previously stored) global scope JSON schema. -/
def Builder.global_scope_schema (b : Builder) (schema : RootSchema) : Builder :=
  { b with globalScopeSchema := some schema }

deriving instance DecidableEq for Except

/-- The outcome of one `try_build` run: the trace of side effects performed,
and the returned result. -/
structure BuildOutcome where
  effects : List Effect
  result : Except Error Unit
deriving DecidableEq

/-- `Builder::try_build` from the source: read and validate the crate name,
read the output directory and the links variable, create the autogenerated
directory, autogenerate command permissions when the command list is
non-empty, load and merge the permission files, emit the schema, generate
the docs, emit the optional global-scope schema, and probe the metadata. -/
def try_build (b : Builder) (env : Env) (fs : List (String × PermissionFile))
    (metadataResult : Option String) : BuildOutcome :=
  match build_var env "CARGO_PKG_NAME" with
  | Except.error e => { effects := [], result := Except.error e }
  | Except.ok name =>
    -- convention: plugin names should not use underscores
    -- (the source's `name.contains('_')` is membership of the character,
    -- embedded here over the string's character list)
    if name.data.contains '_' then
      { effects := [], result := Except.error Error.CrateName }
    else
      match build_var env "OUT_DIR" with
      | Except.error e => { effects := [], result := Except.error e }
      | Except.ok outDir =>
        -- requirement: links MUST be set and MUST match the name
        match build_var env "CARGO_MANIFEST_LINKS" with
        | Except.error e => { effects := [], result := Except.error e }
        | Except.ok _links =>
          let eff := [Effect.createDir autogeneratedDir]
          let eff := eff ++ (if b.commands.isEmpty then []
            else autogenerate_command_permissions commandsDirPath b.commands "")
          match define_permissions fs name outDir with
          | Except.error e => { effects := eff, result := Except.error e }
          | Except.ok (permissions, permEff) =>
            let eff := eff ++ permEff
            let eff := eff ++ generate_schema permissions "./permissions" name outDir
            let eff := eff ++ generate_docs permissions autogeneratedDir
            let eff := eff ++ global_scope_step b.globalScopeSchema name outDir
            match find_metadata env metadataResult with
            | Except.error e => { effects := eff, result := Except.error e }
            | Except.ok m =>
              { effects := eff ++ [Effect.printLine m], result := Except.ok () }

/-- Modelled from the spec (§7, the Display rendering of tauri-utils
`acl::Error`): every failure path names the offending input. -/
def error_message : Error → String
  | Error.BuildVar key => "build script variable " ++ key ++ " is not set"
  | Error.CrateName => "plugin crate names cannot contain underscores"
  | Error.Parse path => "failed to parse permission file at " ++ path
  | Error.Validation p q => "identifier declared in both " ++ p ++ " and " ++ q
  | Error.WriteFile path => "failed to write file " ++ path
  | Error.Metadata => "failed to query cargo metadata"

/-- The value of the compile-time macro `env!("CARGO_PKG_NAME")` in
`Builder::build`: it is expanded while the crate containing this source file
(the package at `core/tauri-plugin`, named `tauri-plugin`) is compiled, so it
is this fixed string, independent of the plugin crate whose build script runs
the builder. -/
def compileTimePkgName : String := "tauri-plugin"

/-- `Builder::build` from the source: run `try_build`; on error print the
compile-time package name and the error to standard output and exit with
status 1; on success terminate normally (status 0). -/
def Builder.build (b : Builder) (env : Env) (fs : List (String × PermissionFile))
    (metadataResult : Option String) : List Effect × Nat :=
  let outcome := try_build b env fs metadataResult
  match outcome.result with
  | Except.error e =>
    (outcome.effects
      ++ [Effect.printLine (compileTimePkgName ++ ": " ++ error_message e)], 1)
  | Except.ok _ => (outcome.effects, 0)

/-! ## Claim-side rendering of the documentation (for the refinement claim C1) -/

/-- Concatenation of a list of strings (used by the claim-side renderer). -/
def concatStrings : List String → String
  | [] => ""
  | s :: rest => s ++ concatStrings rest

/-- Claim-side: one Markdown section with the given heading, the body after
a blank line when present, followed by a blank line. -/
def sectionMD (heading : String) (body : Option String) : String :=
  match body with
  | some b => "## " ++ heading ++ "\n\n" ++ b ++ "\n\n"
  | none => "## " ++ heading ++ "\n\n"

/-- Claim-side: the sections of one permission file, in declaration order:
one per set, then one for the default permission when present (heading
literally default), then one per individual permission. -/
def renderFileSpec (f : PermissionFile) : String :=
  concatStrings (f.set.map (fun s => sectionMD s.identifier (some s.description)))
    ++ (match f.default with
        | some d => sectionMD "default" d.description
        | none => "")
    ++ concatStrings (f.permission.map (fun p => sectionMD p.identifier p.description))

/-- Claim-side: the whole document, header then the files in collection
order. -/
def renderCollectionSpec (files : List PermissionFile) : String :=
  "# Permissions\n\n" ++ concatStrings (files.map renderFileSpec)

/-! ## Helper lemmas -/

theorem foldl_append_out {α : Type} (f : String → α → String) (g : α → String)
    (hf : ∀ d x, f d x = d ++ g x) :
    ∀ (l : List α) (init : String),
      l.foldl f init = init ++ concatStrings (l.map g)
  | [], init => by simp [concatStrings, String.append_empty]
  | x :: l, init => by
    rw [List.map_cons, List.foldl_cons, hf, foldl_append_out f g hf l,
      concatStrings, String.append_assoc]

theorem docs_from_some_append (id d : String) :
    docs_from id (some d) ++ "\n\n" = sectionMD id (some d) := rfl

theorem docs_from_append (id : String) (d : Option String) :
    docs_from id d ++ "\n\n" = sectionMD id d := by
  cases d <;> rfl


theorem docsStep_eq (docs : String) (f : PermissionFile) :
    docsStep docs f = docs ++ renderFileSpec f := by
  unfold docsStep renderFileSpec
  rw [foldl_append_out _ (fun p => sectionMD p.identifier p.description)
    (fun d x => by rw [String.append_assoc, docs_from_append])]
  rw [foldl_append_out _ (fun s => sectionMD s.identifier (some s.description))
    (fun d x => by rw [String.append_assoc, docs_from_some_append])]
  cases f.default with
  | none => simp [String.append_assoc, String.append_empty, String.empty_append]
  | some dflt =>
    obtain ⟨dd⟩ := dflt
    cases dd <;> simp [docs_from, sectionMD, String.append_assoc]

theorem generate_docs_content_eq (files : List PermissionFile) :
    generate_docs_content files = renderCollectionSpec files :=
  foldl_append_out docsStep renderFileSpec docsStep_eq files _

/-- C1: for every merged permission collection, `generate_docs` renders, in
collection order per file, one Markdown section per permission set (heading
the identifier, body the description), then a section with heading literally
default whose body is the default description and is omitted when absent,
then one section per individual permission (body omitted when absent); in
particular, for one set read-files with its description, a default with
description no-op and no individual permissions, the document contains, in
order, the read-files section then the default section. -/
theorem generate_docs_renders_in_collection_order :
    (∀ files : List PermissionFile,
      generate_docs_content files = renderCollectionSpec files) ∧
    generate_docs_content
      [{ set := [{ identifier := "read-files", description := "Allows reading files." }],
         default := some { description := some "no-op" },
         permission := [] }] =
      "# Permissions\n\n" ++ ("## read-files" ++ "\n\n" ++ "Allows reading files." ++ "\n\n")
        ++ ("## default" ++ "\n\n" ++ "no-op" ++ "\n\n") :=
  ⟨generate_docs_content_eq, by decide⟩

/-- C10: the generated reference document always begins with the literal
heading `# Permissions` followed by a blank line, before any per-entry
section; for an empty merged collection the document written to
`reference.md` is exactly that header and nothing else. -/
theorem generate_docs_header_first :
    (∀ files : List PermissionFile, ∃ rest,
      generate_docs_content files = "# Permissions\n\n" ++ rest) ∧
    ∀ out_dir : String, generate_docs [] out_dir =
      [Effect.writeFile (out_dir ++ "/reference.md") "# Permissions\n\n"] := by
  refine ⟨fun files => ⟨concatStrings (files.map renderFileSpec),
    generate_docs_content_eq files⟩, fun out_dir => rfl⟩

/-! ## Duplicate detection lemmas (loader and merger) -/

/-- Two entries of the same kind with the same identifier occur in the list,
the second strictly after the first. -/
def HasConflict (l : List (IdKind × String × String)) : Prop :=
  ∃ l₁ e l₂ x, l = l₁ ++ e :: l₂ ∧ x ∈ l₂ ∧ x.1 = e.1 ∧ x.2.1 = e.2.1

/-- The pair of sources `a`, `b` names a genuine conflict of the loaded
collection: two same-kind, same-identifier entries, drawn from source `a`
and, later, source `b`. -/
def ConflictNamed (files : List (String × PermissionFile)) (a b : String) : Prop :=
  ∃ l₁ e l₂ x, collectionEntries files = l₁ ++ e :: l₂ ∧ x ∈ l₂ ∧
    x.1 = e.1 ∧ x.2.1 = e.2.1 ∧ e.2.2 = a ∧ x.2.2 = b

theorem collectionEntries_append (u v : List (String × PermissionFile)) :
    collectionEntries (u ++ v) = collectionEntries u ++ collectionEntries v := by
  simp [collectionEntries]

theorem collectionEntries_cons (p : String) (f : PermissionFile)
    (rest : List (String × PermissionFile)) :
    collectionEntries ((p, f) :: rest) = fileEntries p f ++ collectionEntries rest := by
  simp [collectionEntries]

theorem hasConflict_firstDuplicate :
    ∀ l, HasConflict l → (firstDuplicate l).isSome = true := by
  intro l
  induction l with
  | nil =>
    rintro ⟨l₁, e, l₂, x, hl, hx, hk, hid⟩
    exact absurd hl (by simp)
  | cons e₀ rest ih =>
    rintro ⟨l₁, e, l₂, x, hl, hx, hk, hid⟩
    cases l₁ with
    | nil =>
      simp only [List.nil_append, List.cons.injEq] at hl
      obtain ⟨he, hrest⟩ := hl
      have hfind : (rest.find? (fun y => y.1 == e₀.1 && y.2.1 == e₀.2.1)).isSome = true := by
        refine List.find?_isSome.mpr ⟨x, ?_, ?_⟩
        · rw [hrest]; exact hx
        · simp [hk, hid, he]
      obtain ⟨y, hy⟩ := Option.isSome_iff_exists.mp hfind
      simp [firstDuplicate, hy]
    | cons a l₁ =>
      simp only [List.cons_append, List.cons.injEq] at hl
      obtain ⟨ha, hrest⟩ := hl
      cases hfind : rest.find? (fun y => y.1 == e₀.1 && y.2.1 == e₀.2.1) with
      | some y => simp [firstDuplicate, hfind]
      | none =>
        have := ih ⟨l₁, e, l₂, x, hrest, hx, hk, hid⟩
        simpa [firstDuplicate, hfind] using this

theorem firstDuplicate_some :
    ∀ l a b, firstDuplicate l = some (a, b) →
      ∃ l₁ e l₂ x, l = l₁ ++ e :: l₂ ∧ x ∈ l₂ ∧
        x.1 = e.1 ∧ x.2.1 = e.2.1 ∧ e.2.2 = a ∧ x.2.2 = b := by
  intro l
  induction l with
  | nil => intro a b h; exact absurd h (by simp [firstDuplicate])
  | cons e₀ rest ih =>
    intro a b h
    cases hfind : rest.find? (fun y => y.1 == e₀.1 && y.2.1 == e₀.2.1) with
    | some y =>
      have hmem : y ∈ rest := List.mem_of_find?_eq_some hfind
      have hpred := List.find?_some hfind
      simp only [Bool.and_eq_true, beq_iff_eq] at hpred
      have hout : firstDuplicate (e₀ :: rest) = some (e₀.2.2, y.2.2) := by
        simp [firstDuplicate, hfind]
      rw [h] at hout
      obtain ⟨h₁, h₂⟩ := Prod.mk.injEq .. ▸ (Option.some.injEq .. ▸ hout.symm)
      exact ⟨[], e₀, rest, y, by simp, hmem, hpred.1, hpred.2, by rw [h₁], by rw [h₂]⟩
    | none =>
      have hout : firstDuplicate (e₀ :: rest) = firstDuplicate rest := by
        simp [firstDuplicate, hfind]
      obtain ⟨l₁, e, l₂, x, hl, hx, hk, hid, ha, hb⟩ := ih a b (hout ▸ h)
      exact ⟨e₀ :: l₁, e, l₂, x, by rw [hl]; rfl, hx, hk, hid, ha, hb⟩

theorem nodupKeys_firstDuplicate :
    ∀ l : List (IdKind × String × String),
      (l.map (fun e => (e.1, e.2.1))).Nodup → firstDuplicate l = none := by
  intro l
  induction l with
  | nil => intro _; rfl
  | cons e₀ rest ih =>
    intro h
    rw [List.map_cons, List.nodup_cons] at h
    obtain ⟨hnotmem, hnd⟩ := h
    have hfind : rest.find? (fun y => y.1 == e₀.1 && y.2.1 == e₀.2.1) = none := by
      rw [List.find?_eq_none]
      intro x hx hpred
      simp only [Bool.and_eq_true, beq_iff_eq] at hpred
      exact hnotmem (by
        rw [← hpred.1, ← hpred.2]
        exact List.mem_map_of_mem (fun e => (e.1, e.2.1)) hx)
    simp [firstDuplicate, hfind, ih hnd]

theorem conflict_of_two_files (l₁ : List (String × PermissionFile)) (p₁ : String)
    (f₁ : PermissionFile) (l₂ : List (String × PermissionFile)) (p₂ : String)
    (f₂ : PermissionFile) (l₃ : List (String × PermissionFile)) (k : IdKind)
    (id : String)
    (hm₁ : (k, id, p₁) ∈ fileEntries p₁ f₁)
    (hm₂ : (k, id, p₂) ∈ fileEntries p₂ f₂) :
    HasConflict (collectionEntries (l₁ ++ (p₁, f₁) :: l₂ ++ (p₂, f₂) :: l₃)) := by
  obtain ⟨A₁, A₂, hA⟩ := List.append_of_mem hm₁
  refine ⟨collectionEntries l₁ ++ A₁, (k, id, p₁),
    A₂ ++ collectionEntries l₂ ++ fileEntries p₂ f₂ ++ collectionEntries l₃,
    (k, id, p₂), ?_, ?_, rfl, rfl⟩
  · rw [collectionEntries_append, collectionEntries_cons, collectionEntries_append,
      collectionEntries_cons, hA]
    simp [List.append_assoc, List.cons_append]
  · simp only [List.mem_append]
    tauto

/-- C7: for any two loaded declaration files declaring an identifier of the
same kind (set or permission), the merge fails with a Validation error whose
two named sources are the sources of a genuine same-kind duplicate of the
collection; for files with pairwise disjoint identifiers the merge succeeds
and preserves file-then-declaration order; an empty match is not an error. -/
theorem loader_merger_duplicate_detection :
    (∀ files l₁ p₁ f₁ l₂ p₂ f₂ l₃ k id,
      files = l₁ ++ (p₁, f₁) :: l₂ ++ (p₂, f₂) :: l₃ →
      (k, id, p₁) ∈ fileEntries p₁ f₁ →
      (k, id, p₂) ∈ fileEntries p₂ f₂ →
      ∃ a b, mergePermissionFiles files = Except.error (Error.Validation a b) ∧
        ConflictNamed files a b) ∧
    (∀ files, ((collectionEntries files).map (fun e => (e.1, e.2.1))).Nodup →
      mergePermissionFiles files = Except.ok (files.map Prod.snd)) ∧
    mergePermissionFiles [] = Except.ok [] := by
  refine ⟨?_, ?_, rfl⟩
  · intro files l₁ p₁ f₁ l₂ p₂ f₂ l₃ k id hfiles hm₁ hm₂
    have hc : HasConflict (collectionEntries files) := by
      rw [hfiles]; exact conflict_of_two_files l₁ p₁ f₁ l₂ p₂ f₂ l₃ k id hm₁ hm₂
    obtain ⟨⟨a, b⟩, hab⟩ := Option.isSome_iff_exists.mp (hasConflict_firstDuplicate _ hc)
    refine ⟨a, b, by simp [mergePermissionFiles, hab], ?_⟩
    obtain ⟨L₁, e, L₂, x, hl, hx, hk, hid, ha, hb⟩ := firstDuplicate_some _ a b hab
    exact ⟨L₁, e, L₂, x, hl, hx, hk, hid, ha, hb⟩
  · intro files hnd
    simp [mergePermissionFiles, nodupKeys_firstDuplicate _ hnd]

theorem loader_merger_duplicate_detection_witness :
    (∃ a b,
      mergePermissionFiles
        [("a.toml", { set := [{ identifier := "x", description := "dx" }],
                      default := none, permission := [] }),
         ("b.toml", { set := [{ identifier := "x", description := "dy" }],
                      default := none, permission := [] })] =
        Except.error (Error.Validation a b) ∧
      ConflictNamed
        [("a.toml", { set := [{ identifier := "x", description := "dx" }],
                      default := none, permission := [] }),
         ("b.toml", { set := [{ identifier := "x", description := "dy" }],
                      default := none, permission := [] })] a b) ∧
    mergePermissionFiles
      [("a.toml", { set := [{ identifier := "x", description := "dx" }],
                    default := none, permission := [] }),
       ("b.toml", { set := [{ identifier := "y", description := "dy" }],
                    default := none, permission := [] })] =
      Except.ok
        [{ set := [{ identifier := "x", description := "dx" }],
           default := none, permission := [] },
         { set := [{ identifier := "y", description := "dy" }],
           default := none, permission := [] }] :=
  ⟨loader_merger_duplicate_detection.1 _ [] "a.toml" _ [] "b.toml" _ []
      IdKind.set "x" rfl (by decide) (by decide),
    loader_merger_duplicate_detection.2.1 _ (by decide)⟩

/-! ## Path containment -/

/-- `p` lies in (or is) the directory `dir`: with a trailing separator
appended to both, `dir` is a textual prefix of `p`. -/
def pathIsUnder (dir p : String) : Bool :=
  (dir ++ "/").data.isPrefixOf (p ++ "/").data

/-- The effect touches the directory `dir` (creates it, creates something
inside it, or writes a file in it). -/
def touchesDir (dir : String) : Effect → Bool
  | Effect.createDir p => pathIsUnder dir p
  | Effect.writeFile p _ => pathIsUnder dir p
  | Effect.printLine _ => false

theorem isPrefixOf_false_of_head_ne {c₁ c₂ : Char} (l₁ l₂ : List Char)
    (h : c₁ ≠ c₂) : (c₁ :: l₁).isPrefixOf (c₂ :: l₂) = false := by
  simp [List.isPrefixOf, h]

theorem no_out_under_commands (fname : String) :
    pathIsUnder commandsDirPath (artifactPath "out" fname) = false := by
  have h₁ : (commandsDirPath ++ "/").data =
      'p' :: ("ermissions/autogenerated/commands/" : String).data := by decide
  have h₂ : (artifactPath "out" fname ++ "/").data =
      'o' :: (("ut/" : String).data ++ (fname.data ++ ("/" : String).data)) := by
    have hout : ("out" : String).data = 'o' :: ("ut" : String).data := by decide
    simp [artifactPath, String.data_append, hout]
  rw [pathIsUnder, h₁, h₂]
  exact isPrefixOf_false_of_head_ne _ _ (by decide)

/-! ## Shape of the pipeline trace -/

theorem find_metadata_error (env : Env) (meta : Option String) (e : Error)
    (h : find_metadata env meta = Except.error e) :
    e = Error.BuildVar "CARGO_MANIFEST_DIR" ∨ e = Error.Metadata := by
  unfold find_metadata build_var at h
  cases henv : env "CARGO_MANIFEST_DIR" <;> rw [henv] at h
  · left; exact (Except.error.injEq .. ▸ h.symm)
  · cases meta <;> simp_all

theorem try_build_shape_ok
    (b : Builder) (env : Env) (fs : List (String × PermissionFile))
    (meta : Option String) (name outDir links : String) (perms : List PermissionFile)
    (hname : env "CARGO_PKG_NAME" = some name)
    (hu : name.data.contains '_' = false)
    (hout : env "OUT_DIR" = some outDir)
    (hlinks : env "CARGO_MANIFEST_LINKS" = some links)
    (hmp : mergePermissionFiles fs = Except.ok perms) :
    ∃ last,
      (last = [] ∨ ∃ m, last = [Effect.printLine m]) ∧
      (try_build b env fs meta).effects =
        [Effect.createDir autogeneratedDir]
        ++ (if b.commands.isEmpty then []
            else autogenerate_command_permissions commandsDirPath b.commands "")
        ++ [Effect.writeFile (artifactPath outDir (name ++ "-permission-files"))
            (serializePermissionFiles perms)]
        ++ [Effect.writeFile (artifactPath outDir (name ++ "-schema.json"))
            (permissionFileSchemaJson perms)]
        ++ [Effect.writeFile (autogeneratedDir ++ "/reference.md")
            (generate_docs_content perms)]
        ++ global_scope_step b.globalScopeSchema name outDir
        ++ last ∧
      (try_build b env fs meta).result ≠ Except.error Error.CrateName := by
  have hmem : '_' ∉ name.data := by simpa using hu
  cases hfm : find_metadata env meta with
  | error e =>
    refine ⟨[], Or.inl rfl, ?_, ?_⟩
    · simp [try_build, build_var, hname, hout, hlinks, hmem, define_permissions, hmp,
        hfm, List.append_assoc, generate_schema, generate_docs]
    · rcases find_metadata_error env meta e hfm with h | h <;>
        simp [try_build, build_var, hname, hout, hlinks, hmem, define_permissions,
          hmp, hfm, h]
  | ok m =>
    refine ⟨[Effect.printLine m], Or.inr ⟨m, rfl⟩, ?_, ?_⟩ <;>
      simp [try_build, build_var, hname, hout, hlinks, hmem, define_permissions, hmp,
        hfm, List.append_assoc, generate_schema, generate_docs]

theorem try_build_mem_of_merge_ok
    (b : Builder) (env : Env) (fs : List (String × PermissionFile))
    (meta : Option String) (name outDir links : String) (perms : List PermissionFile)
    (hname : env "CARGO_PKG_NAME" = some name)
    (hu : name.data.contains '_' = false)
    (hout : env "OUT_DIR" = some outDir)
    (hlinks : env "CARGO_MANIFEST_LINKS" = some links)
    (hmp : mergePermissionFiles fs = Except.ok perms) :
    (try_build b env fs meta).result ≠ Except.error Error.CrateName ∧
    Effect.writeFile (artifactPath outDir (name ++ "-permission-files"))
      (serializePermissionFiles perms) ∈ (try_build b env fs meta).effects ∧
    Effect.writeFile (artifactPath outDir (name ++ "-schema.json"))
      (permissionFileSchemaJson perms) ∈ (try_build b env fs meta).effects := by
  obtain ⟨last, hlast, heff, hres⟩ :=
    try_build_shape_ok b env fs meta name outDir links perms hname hu hout hlinks hmp
  refine ⟨hres, ?_, ?_⟩ <;> simp [heff, List.mem_append]

/-- C2: for every plugin package name containing an underscore, `try_build`
returns the `CrateName` error; for every name without one the name passes
validation (the result is never the `CrateName` error) and is used unchanged
downstream: the compiled-permissions and schema artifacts are namespaced by
exactly that name. -/
theorem crate_name_policy :
    (∀ b env fs meta name,
      env "CARGO_PKG_NAME" = some name → name.data.contains '_' = true →
      (try_build b env fs meta).result = Except.error Error.CrateName) ∧
    (∀ b env fs meta name outDir links perms,
      env "CARGO_PKG_NAME" = some name → name.data.contains '_' = false →
      env "OUT_DIR" = some outDir → env "CARGO_MANIFEST_LINKS" = some links →
      mergePermissionFiles fs = Except.ok perms →
      (try_build b env fs meta).result ≠ Except.error Error.CrateName ∧
      Effect.writeFile (artifactPath outDir (name ++ "-permission-files"))
        (serializePermissionFiles perms) ∈ (try_build b env fs meta).effects ∧
      Effect.writeFile (artifactPath outDir (name ++ "-schema.json"))
        (permissionFileSchemaJson perms) ∈ (try_build b env fs meta).effects) := by
  constructor
  · intro b env fs meta name hname hu
    have hmem : '_' ∈ name.data := by simpa using hu
    simp [try_build, build_var, hname, hmem]
  · intro b env fs meta name outDir links perms hname hu hout hlinks hmp
    exact try_build_mem_of_merge_ok b env fs meta name outDir links perms
      hname hu hout hlinks hmp

/-- C3: the permission JSON Schema artifact is written to the build output
directory under the name `<build-output-dir>/<plugin-name>-schema.json`. -/
theorem schema_written_to_out_dir :
    ∀ b env fs meta name outDir links perms,
      env "CARGO_PKG_NAME" = some name → name.data.contains '_' = false →
      env "OUT_DIR" = some outDir → env "CARGO_MANIFEST_LINKS" = some links →
      mergePermissionFiles fs = Except.ok perms →
      Effect.writeFile (artifactPath outDir (name ++ "-schema.json"))
        (permissionFileSchemaJson perms) ∈ (try_build b env fs meta).effects := by
  intro b env fs meta name outDir links perms hname hu hout hlinks hmp
  exact (try_build_mem_of_merge_ok b env fs meta name outDir links perms
    hname hu hout hlinks hmp).2.2

/-- C5: a plugin name containing an underscore makes `try_build` fail with
`CrateName` before any filesystem side effect: the effect trace of the run
is empty. -/
theorem underscore_name_no_side_effects :
    ∀ b env fs meta name,
      env "CARGO_PKG_NAME" = some name → name.data.contains '_' = true →
      try_build b env fs meta =
        { effects := [], result := Except.error Error.CrateName } := by
  intro b env fs meta name hname hu
  have hmem : '_' ∈ name.data := by simpa using hu
  simp [try_build, build_var, hname, hmem]

/-- A well-formed build-script environment for concrete runs. -/
def envOk : Env := fun k =>
  if k = "CARGO_PKG_NAME" then some "file-reader"
  else if k = "OUT_DIR" then some "out"
  else if k = "CARGO_MANIFEST_LINKS" then some "file-reader"
  else if k = "CARGO_MANIFEST_DIR" then some "." else none

/-- An environment whose package name violates the naming convention. -/
def envUnderscore : Env := fun k =>
  if k = "CARGO_PKG_NAME" then some "file_reader"
  else if k = "OUT_DIR" then some "out"
  else if k = "CARGO_MANIFEST_LINKS" then some "file_reader"
  else if k = "CARGO_MANIFEST_DIR" then some "." else none

theorem crate_name_policy_witness :
    (try_build (Builder.new []) envUnderscore [] (some "m")).result =
      Except.error Error.CrateName ∧
    ((try_build (Builder.new []) envOk [] (some "m")).result ≠
        Except.error Error.CrateName ∧
      Effect.writeFile (artifactPath "out" ("file-reader" ++ "-permission-files"))
        (serializePermissionFiles []) ∈
        (try_build (Builder.new []) envOk [] (some "m")).effects ∧
      Effect.writeFile (artifactPath "out" ("file-reader" ++ "-schema.json"))
        (permissionFileSchemaJson []) ∈
        (try_build (Builder.new []) envOk [] (some "m")).effects) :=
  ⟨crate_name_policy.1 (Builder.new []) envUnderscore [] (some "m") "file_reader"
      (by decide) (by decide),
    crate_name_policy.2 (Builder.new []) envOk [] (some "m") "file-reader" "out"
      "file-reader" [] (by decide) (by decide) (by decide) (by decide) rfl⟩

theorem schema_written_to_out_dir_witness :
    Effect.writeFile (artifactPath "out" ("file-reader" ++ "-schema.json"))
      (permissionFileSchemaJson []) ∈
      (try_build (Builder.new []) envOk [] (some "m")).effects :=
  schema_written_to_out_dir (Builder.new []) envOk [] (some "m") "file-reader"
    "out" "file-reader" [] (by decide) (by decide) (by decide) (by decide) rfl

theorem underscore_name_no_side_effects_witness :
    try_build (Builder.new []) envUnderscore [] (some "m") =
      { effects := [], result := Except.error Error.CrateName } :=
  underscore_name_no_side_effects (Builder.new []) envUnderscore [] (some "m")
    "file_reader" (by decide) (by decide)

theorem autogen_write_mem
    (b : Builder) (env : Env) (fs : List (String × PermissionFile))
    (meta : Option String) (name outDir links c : String)
    (hname : env "CARGO_PKG_NAME" = some name)
    (hu : name.data.contains '_' = false)
    (hout : env "OUT_DIR" = some outDir)
    (hlinks : env "CARGO_MANIFEST_LINKS" = some links)
    (hc : c ∈ b.commands) :
    Effect.writeFile (artifactPath commandsDirPath (c ++ "." ++ autogenExtension))
      (commandFileContent "" c) ∈ (try_build b env fs meta).effects := by
  have hmem : '_' ∉ name.data := by simpa using hu
  have hie : b.commands.isEmpty = false := by
    cases hl : b.commands with
    | nil => rw [hl] at hc; exact absurd hc (List.not_mem_nil c)
    | cons x xs => rfl
  cases hmp : mergePermissionFiles fs with
  | error err =>
    simp [try_build, build_var, hname, hmem, hout, hlinks, define_permissions,
      hmp, hie, autogenerate_command_permissions, List.mem_append, List.mem_map]
    exact ⟨c, hc, rfl, rfl⟩
  | ok perms =>
    cases hfm : find_metadata env meta with
    | error e =>
      simp [try_build, build_var, hname, hmem, hout, hlinks, define_permissions,
        hmp, hfm, hie, autogenerate_command_permissions, List.mem_append,
        List.mem_map]
      exact Or.inl ⟨c, hc, rfl, rfl⟩
    | ok m =>
      simp [try_build, build_var, hname, hmem, hout, hlinks, define_permissions,
        hmp, hfm, hie, autogenerate_command_permissions, List.mem_append,
        List.mem_map]
      exact Or.inl ⟨c, hc, rfl, rfl⟩

theorem no_commands_no_touch
    (b : Builder) (env : Env) (fs : List (String × PermissionFile))
    (meta : Option String)
    (hempty : b.commands = [])
    (hsep : ∀ outDir fname, env "OUT_DIR" = some outDir →
      pathIsUnder commandsDirPath (artifactPath outDir fname) = false) :
    ∀ e ∈ (try_build b env fs meta).effects, touchesDir commandsDirPath e = false := by
  intro e he
  cases hn : env "CARGO_PKG_NAME" with
  | none => simp [try_build, build_var, hn] at he
  | some name =>
    by_cases hc : '_' ∈ name.data
    · simp [try_build, build_var, hn, hc] at he
    · cases ho : env "OUT_DIR" with
      | none => simp [try_build, build_var, hn, hc, ho] at he
      | some outDir =>
        cases hl : env "CARGO_MANIFEST_LINKS" with
        | none => simp [try_build, build_var, hn, hc, ho, hl] at he
        | some links =>
          cases hmp : mergePermissionFiles fs with
          | error err =>
            simp [try_build, build_var, hn, hc, ho, hl, define_permissions,
              hmp, hempty] at he
            subst he
            decide
          | ok perms =>
            have hu : name.data.contains '_' = false := by simpa using hc
            obtain ⟨last, hlast, heff, _⟩ := try_build_shape_ok b env fs meta
              name outDir links perms hn hu ho hl hmp
            rw [heff] at he
            cases hg : b.globalScopeSchema with
            | none =>
              rcases hlast with rfl | ⟨m, rfl⟩
              · simp [hempty, hg, global_scope_step, List.mem_append, or_assoc] at he
                rcases he with rfl | rfl | rfl | rfl <;>
                  first
                    | rfl
                    | decide
                    | exact hsep outDir _ ho
              · simp [hempty, hg, global_scope_step, List.mem_append, or_assoc] at he
                rcases he with rfl | rfl | rfl | rfl | rfl <;>
                  first
                    | rfl
                    | decide
                    | exact hsep outDir _ ho
            | some s =>
              rcases hlast with rfl | ⟨m, rfl⟩
              · simp [hempty, hg, global_scope_step, define_global_scope_schema,
                  List.mem_append, or_assoc] at he
                rcases he with rfl | rfl | rfl | rfl | rfl <;>
                  first
                    | rfl
                    | decide
                    | exact hsep outDir _ ho
              · simp [hempty, hg, global_scope_step, define_global_scope_schema,
                  List.mem_append, or_assoc] at he
                rcases he with rfl | rfl | rfl | rfl | rfl | rfl <;>
                  first
                    | rfl
                    | decide
                    | exact hsep outDir _ ho

/-- C6: with an empty command-name list the pipeline writes no files into
and does not touch the commands target directory (assuming the build output
directory does not alias it); with a non-empty list the autogeneration step
is invoked and writes one declaration file per command into that
directory. -/
theorem autogen_commands_frame :
    (∀ b env fs meta,
      b.commands = [] →
      (∀ outDir fname, env "OUT_DIR" = some outDir →
        pathIsUnder commandsDirPath (artifactPath outDir fname) = false) →
      ∀ e ∈ (try_build b env fs meta).effects,
        touchesDir commandsDirPath e = false) ∧
    (∀ b env fs meta name outDir links c,
      env "CARGO_PKG_NAME" = some name → name.data.contains '_' = false →
      env "OUT_DIR" = some outDir → env "CARGO_MANIFEST_LINKS" = some links →
      c ∈ b.commands →
      Effect.writeFile (artifactPath commandsDirPath (c ++ "." ++ autogenExtension))
        (commandFileContent "" c) ∈ (try_build b env fs meta).effects) :=
  ⟨fun b env fs meta hempty hsep =>
      no_commands_no_touch b env fs meta hempty hsep,
    fun b env fs meta name outDir links c hname hu hout hlinks hc =>
      autogen_write_mem b env fs meta name outDir links c hname hu hout hlinks hc⟩

theorem envOk_out_dir_sep : ∀ outDir fname, envOk "OUT_DIR" = some outDir →
    pathIsUnder commandsDirPath (artifactPath outDir fname) = false := by
  intro outDir fname h
  have h2 : envOk "OUT_DIR" = some "out" := by decide
  rw [h2] at h
  injection h with h3
  subst h3
  exact no_out_under_commands fname

theorem autogen_commands_frame_witness :
    touchesDir commandsDirPath (Effect.createDir autogeneratedDir) = false ∧
    Effect.writeFile
        (artifactPath commandsDirPath ("read-file" ++ "." ++ autogenExtension))
        (commandFileContent "" "read-file") ∈
      (try_build (Builder.new ["read-file"]) envOk [] (some "m")).effects :=
  ⟨autogen_commands_frame.1 (Builder.new []) envOk [] (some "m") rfl
      envOk_out_dir_sep (Effect.createDir autogeneratedDir) (by decide),
    autogen_commands_frame.2 (Builder.new ["read-file"]) envOk [] (some "m")
      "file-reader" "out" "file-reader" "read-file" (by decide) (by decide)
      (by decide) (by decide) (by decide)⟩

/-- C8: `CARGO_MANIFEST_LINKS` is presence-checked only: when it is unset
(with the earlier steps passing) `try_build` fails with a `BuildVar` error
naming that key, and two runs over environments that agree everywhere except
the (present) value of that variable behave identically. -/
theorem links_value_noninterference :
    (∀ b env₁ env₂ fs meta v₁ v₂,
      (∀ k, k ≠ "CARGO_MANIFEST_LINKS" → env₁ k = env₂ k) →
      env₁ "CARGO_MANIFEST_LINKS" = some v₁ →
      env₂ "CARGO_MANIFEST_LINKS" = some v₂ →
      try_build b env₁ fs meta = try_build b env₂ fs meta) ∧
    (∀ b env fs meta name outDir,
      env "CARGO_PKG_NAME" = some name → name.data.contains '_' = false →
      env "OUT_DIR" = some outDir → env "CARGO_MANIFEST_LINKS" = none →
      try_build b env fs meta =
        { effects := [],
          result := Except.error (Error.BuildVar "CARGO_MANIFEST_LINKS") }) := by
  constructor
  · intro b env₁ env₂ fs meta v₁ v₂ hagree h₁ h₂
    have e₁ : env₁ "CARGO_PKG_NAME" = env₂ "CARGO_PKG_NAME" := hagree _ (by decide)
    have e₂ : env₁ "OUT_DIR" = env₂ "OUT_DIR" := hagree _ (by decide)
    have e₃ : env₁ "CARGO_MANIFEST_DIR" = env₂ "CARGO_MANIFEST_DIR" :=
      hagree _ (by decide)
    simp only [try_build, find_metadata, build_var, e₁, e₂, e₃, h₁, h₂]
  · intro b env fs meta name outDir hname hu hout hlinks
    have hmem : '_' ∉ name.data := by simpa using hu
    simp [try_build, build_var, hname, hmem, hout, hlinks]

/-- An environment identical to `envOk` except for the value of the links
variable. -/
def envOkAltLinks : Env := fun k =>
  if k = "CARGO_MANIFEST_LINKS" then some "other-value" else envOk k

/-- An environment identical to `envOk` except the links variable is
unset. -/
def envNoLinks : Env := fun k =>
  if k = "CARGO_MANIFEST_LINKS" then none else envOk k

theorem links_value_noninterference_witness :
    try_build (Builder.new []) envOk [] (some "m") =
      try_build (Builder.new []) envOkAltLinks [] (some "m") ∧
    try_build (Builder.new []) envNoLinks [] (some "m") =
      { effects := [],
        result := Except.error (Error.BuildVar "CARGO_MANIFEST_LINKS") } :=
  ⟨links_value_noninterference.1 (Builder.new []) envOk envOkAltLinks [] (some "m")
      "file-reader" "other-value"
      (fun k hk => by simp [envOkAltLinks, hk]) (by decide) (by decide),
    links_value_noninterference.2 (Builder.new []) envNoLinks [] (some "m")
      "file-reader" "out" (by decide) (by decide) (by decide) (by decide)⟩

/-- C9: `Builder::global_scope_schema` replaces any previously stored
schema, so calling it repeatedly keeps only the last one; a builder from
`new` stores none; the global-scope step of the pipeline emits nothing when
no schema is stored, at most one artifact ever, and, when a schema is
stored, exactly the artifact derived from it. -/
theorem global_scope_schema_replaces :
    (∀ (b : Builder) (s₁ s₂ : RootSchema),
      (b.global_scope_schema s₁).global_scope_schema s₂ =
      b.global_scope_schema s₂) ∧
    (∀ commands, (Builder.new commands).globalScopeSchema = none) ∧
    (∀ name outDir, global_scope_step none name outDir = []) ∧
    (∀ o name outDir, (global_scope_step o name outDir).length ≤ 1) ∧
    (∀ b env fs meta name outDir links perms s,
      env "CARGO_PKG_NAME" = some name → name.data.contains '_' = false →
      env "OUT_DIR" = some outDir → env "CARGO_MANIFEST_LINKS" = some links →
      mergePermissionFiles fs = Except.ok perms →
      b.globalScopeSchema = some s →
      Effect.writeFile (artifactPath outDir (name ++ "-global-scope-schema.json"))
        ("json-schema(global-scope):" ++ s.json) ∈
        (try_build b env fs meta).effects) := by
  refine ⟨fun b s₁ s₂ => rfl, fun commands => rfl, fun name outDir => rfl, ?_, ?_⟩
  · intro o name outDir
    cases o <;> simp [global_scope_step, define_global_scope_schema]
  · intro b env fs meta name outDir links perms s hname hu hout hlinks hmp hgss
    obtain ⟨last, hlast, heff, _⟩ :=
      try_build_shape_ok b env fs meta name outDir links perms hname hu hout hlinks hmp
    rw [heff]
    simp [global_scope_step, hgss, define_global_scope_schema, List.mem_append]

theorem global_scope_schema_replaces_witness :
    Effect.writeFile
        (artifactPath "out" ("file-reader" ++ "-global-scope-schema.json"))
        ("json-schema(global-scope):" ++ "gs") ∈
      (try_build ((Builder.new []).global_scope_schema { json := "gs" })
        envOk [] (some "m")).effects :=
  global_scope_schema_replaces.2.2.2.2
    ((Builder.new []).global_scope_schema { json := "gs" }) envOk [] (some "m")
    "file-reader" "out" "file-reader" [] { json := "gs" }
    (by decide) (by decide) (by decide) (by decide) rfl rfl

/-- C4 (amended): on any propagated error the build entry point prints
`"<prefix>: <error message>"` to standard output and terminates with status
1, where the prefix is the compile-time package name of the crate providing
the builder (the value of the `env!` macro, fixed when that crate is
compiled), not the plugin's declared package name; on success it terminates
with status zero with the probed metadata as the last printed line. -/
theorem build_exit_behavior :
    (∀ b env fs meta e,
      (try_build b env fs meta).result = Except.error e →
      b.build env fs meta =
        ((try_build b env fs meta).effects
          ++ [Effect.printLine (compileTimePkgName ++ ": " ++ error_message e)],
          1)) ∧
    (∀ b env fs meta,
      (try_build b env fs meta).result = Except.ok () →
      (b.build env fs meta).2 = 0 ∧
      ∃ m pre, find_metadata env meta = Except.ok m ∧
        (b.build env fs meta).1 = pre ++ [Effect.printLine m]) := by
  constructor
  · intro b env fs meta e h
    simp [Builder.build, h]
  · intro b env fs meta h
    cases hn : env "CARGO_PKG_NAME" with
    | none => simp [try_build, build_var, hn] at h
    | some name =>
      by_cases hc : '_' ∈ name.data
      · simp [try_build, build_var, hn, hc] at h
      · cases ho : env "OUT_DIR" with
        | none => simp [try_build, build_var, hn, hc, ho] at h
        | some outDir =>
          cases hl : env "CARGO_MANIFEST_LINKS" with
          | none => simp [try_build, build_var, hn, hc, ho, hl] at h
          | some links =>
            cases hmp : mergePermissionFiles fs with
            | error err =>
              simp [try_build, build_var, hn, hc, ho, hl, define_permissions,
                hmp] at h
            | ok perms =>
              cases hfm : find_metadata env meta with
              | error e =>
                simp [try_build, build_var, hn, hc, ho, hl, define_permissions,
                  hmp, hfm] at h
              | ok m =>
                have htb : (try_build b env fs meta).result = Except.ok () ∧
                    ∃ pre, (try_build b env fs meta).effects =
                      pre ++ [Effect.printLine m] := by
                  refine ⟨?_, [Effect.createDir autogeneratedDir]
                    ++ (if b.commands.isEmpty then []
                        else autogenerate_command_permissions commandsDirPath
                          b.commands "")
                    ++ [Effect.writeFile
                        (artifactPath outDir (name ++ "-permission-files"))
                        (serializePermissionFiles perms)]
                    ++ generate_schema perms "./permissions" name outDir
                    ++ generate_docs perms autogeneratedDir
                    ++ global_scope_step b.globalScopeSchema name outDir, ?_⟩ <;>
                    simp [try_build, build_var, hn, hc, ho, hl,
                      define_permissions, hmp, hfm, List.append_assoc]
                obtain ⟨hres, pre, heff⟩ := htb
                refine ⟨by simp [Builder.build, hres], m, pre, rfl, ?_⟩
                simp [Builder.build, hres, heff]

theorem build_exit_behavior_witness :
    (Builder.new []).build envUnderscore [] (some "m") =
      ((try_build (Builder.new []) envUnderscore [] (some "m")).effects
        ++ [Effect.printLine
            (compileTimePkgName ++ ": " ++ error_message Error.CrateName)],
        1) ∧
    ((Builder.new []).build envOk [] (some "m")).2 = 0 ∧
    ∃ m pre, find_metadata envOk (some "m") = Except.ok m ∧
      ((Builder.new []).build envOk [] (some "m")).1 =
        pre ++ [Effect.printLine m] :=
  ⟨build_exit_behavior.1 (Builder.new []) envUnderscore [] (some "m")
      Error.CrateName (by decide),
    build_exit_behavior.2 (Builder.new []) envOk [] (some "m") (by decide)⟩

/-- C4 counterexample: with the declared plugin package name `file_reader`,
the line printed by `build` is prefixed by the builder crate's compile-time
package name, not by the plugin's declared package name as the claim
states. -/
theorem build_prefix_counterexample :
    (Builder.new []).build envUnderscore [] (some "m") =
      ([Effect.printLine ("tauri-plugin: " ++ error_message Error.CrateName)],
        1) ∧
    ((Builder.new []).build envUnderscore [] (some "m")).1 ≠
      [Effect.printLine ("file_reader: " ++ error_message Error.CrateName)] :=
  ⟨by decide, by decide⟩
